import Mathlib

set_option maxHeartbeats 1000000

/-- Modulus of C `size_t` arithmetic on the target platform: every arithmetic
operation on `size_t` values in the source wraps modulo `2 ^ 64`. -/
def sizeTMod : Nat := 2 ^ 64

/-- Shallow embedding of the loop at the start of `Spektral::Arenas::optimal_alloc`
(`src/includes/Spektral/Arenas/LinearArena.hpp`, lines 273-275):
`for (int ii = 5; ii < 13; ++ii) if (user_sz < 1 << ii) return 1 << ii;`,
unrolled.  It yields `some (2 ^ ii)` for the first `ii` in `5, ..., 12` with
`user_sz < 2 ^ ii`, and `none` when the loop falls through. -/
def smallBucket (user_sz : Nat) : Option Nat :=
  if user_sz < 2 ^ 5 then some (2 ^ 5)
  else if user_sz < 2 ^ 6 then some (2 ^ 6)
  else if user_sz < 2 ^ 7 then some (2 ^ 7)
  else if user_sz < 2 ^ 8 then some (2 ^ 8)
  else if user_sz < 2 ^ 9 then some (2 ^ 9)
  else if user_sz < 2 ^ 10 then some (2 ^ 10)
  else if user_sz < 2 ^ 11 then some (2 ^ 11)
  else if user_sz < 2 ^ 12 then some (2 ^ 12)
  else none

/-- Shallow embedding of `Spektral::Arenas::optimal_alloc`
(`src/includes/Spektral/Arenas/LinearArena.hpp`, lines 270-284).
The first branch is `smallBucket`.  The second branch embeds
`(1 << 20) + (512 * 1 << 10) * ceil(user_sz - (1 << 20) * 1.0 / (512 * 1 << 10))`:
by C operator precedence the argument of `ceil` is
`user_sz - ((1 << 20) * 1.0 / ((512 * 1) << 10)) = user_sz - 2.0`
(the division is exactly `2.0` in double arithmetic), so for integral
`user_sz ≥ 2 ^ 20` the branch returns `2 ^ 20 + 2 ^ 19 * (user_sz - 2)`;
the double computations involved are exact for arguments below `2 ^ 53`.
The last branch embeds `ceil(user_sz * 1.0 / page_size) * page_size`, with the
page size from `sysconf(_SC_PAGE_SIZE)` passed as the parameter `page_size`
(4096 on the target platform); again exact for arguments below `2 ^ 53`. -/
def optimal_alloc (page_size user_sz : Nat) : Nat :=
  match smallBucket user_sz with
  | some v => v
  | none =>
    if 2 ^ 20 ≤ user_sz then
      2 ^ 20 + 512 * 2 ^ 10 * (user_sz - 2)
    else
      (user_sz + (page_size - 1)) / page_size * page_size

/-- State of `Spektral::Arenas::LinearArena`
(`src/includes/Spektral/Arenas/LinearArena.hpp`, lines 134-137): the tracked
capacity `size_` and the bump cursor `current_offset_`, both `size_t` values.
The byte buffer `data` is modelled separately as a function `Nat → Nat`
(byte offset to byte value) where its contents matter. -/
structure LinearArena where
  size_ : Nat
  current_offset_ : Nat
deriving DecidableEq

/-- Arena state produced by the constructor `LinearArena::LinearArena(size_t size)`
(lines 42-47): `size_ = optimal_alloc(size)` and `current_offset_ = 0`. -/
def LinearArena.init (page_size size : Nat) : LinearArena :=
  ⟨optimal_alloc page_size size, 0⟩

/-- Result of running the constructor `LinearArena::LinearArena(size_t size)`
(lines 42-47) including its interaction with the system allocator: the field
`arena` is the recorded state, and `mallocBytes` is the argument the
constructor passes to `malloc` — which in the source is the raw parameter
`size` (`data = static_cast<char *>(malloc(size));`, line 44), not `size_`. -/
structure ConstructedArena where
  arena : LinearArena
  mallocBytes : Nat
deriving DecidableEq

/-- The constructor `LinearArena::LinearArena(size_t size)` (lines 42-47):
records capacity `optimal_alloc(size)` but requests `size` bytes from `malloc`. -/
def LinearArena.construct (page_size size : Nat) : ConstructedArena :=
  ⟨LinearArena.init page_size size, size⟩

/-- Shallow embedding of `LinearArena::alloc(size_t size)` (lines 62-68):
`if (current_offset_ + size > size_) return nullptr;` then returns the pointer
`data + current_offset_` (modelled by the offset `current_offset_`) and bumps
`current_offset_ += size`.  All `size_t` arithmetic wraps modulo `2 ^ 64`. -/
def LinearArena.alloc (a : LinearArena) (size : Nat) : Option (Nat × LinearArena) :=
  if a.size_ < (a.current_offset_ + size) % sizeTMod then none
  else some (a.current_offset_, ⟨a.size_, (a.current_offset_ + size) % sizeTMod⟩)

/-- Embedding of `memset(data + start, 0, cnt)` on the byte-content model:
bytes at offsets `start, ..., start + cnt - 1` become zero. -/
def memset (m : Nat → Nat) (start cnt : Nat) : Nat → Nat :=
  fun i => if start ≤ i ∧ i < start + cnt then 0 else m i

/-- Shallow embedding of `LinearArena::calloc<T>(size_t blocks)` (lines 90-97)
with `es = sizeof(T)`: checks `current_offset_ + sizeof(T) * blocks > size_`,
zeroes the region with `memset`, returns `data + current_offset_` and bumps the
cursor by `sizeof(T) * blocks`.  The product and the sum are `size_t`
arithmetic, wrapping modulo `2 ^ 64`.  `m` models the byte contents of `data`. -/
def LinearArena.calloc (a : LinearArena) (m : Nat → Nat) (es blocks : Nat) :
    Option (Nat × LinearArena × (Nat → Nat)) :=
  if a.size_ < (a.current_offset_ + es * blocks % sizeTMod) % sizeTMod then none
  else
    some (a.current_offset_,
          ⟨a.size_, (a.current_offset_ + es * blocks % sizeTMod) % sizeTMod⟩,
          memset m a.current_offset_ (es * blocks % sizeTMod))

/-- Shallow embedding of `LinearArena::reset()` (line 132): `current_offset_ = 0`. -/
def LinearArena.reset (a : LinearArena) : LinearArena :=
  ⟨a.size_, 0⟩

/-- One public mutating call on the arena: `alloc(size)`, `calloc<T>(blocks)`
(with `es = sizeof(T)`), or `reset()`. -/
inductive Op where
  | alloc (size : Nat)
  | calloc (es blocks : Nat)
  | reset
deriving DecidableEq

/-- Run a sequence of arena calls from state `a` with buffer contents `m`,
collecting for each call the returned offset (`some p`) or the failure /
no-result value (`none`). -/
def runOps (a : LinearArena) (m : Nat → Nat) (ops : List Op) :
    (LinearArena × (Nat → Nat)) × List (Option Nat) :=
  match ops with
  | [] => ((a, m), [])
  | Op.alloc size :: rest =>
    match a.alloc size with
    | none => let r := runOps a m rest; (r.1, none :: r.2)
    | some (p, a1) => let r := runOps a1 m rest; (r.1, some p :: r.2)
  | Op.calloc es blocks :: rest =>
    match a.calloc m es blocks with
    | none => let r := runOps a m rest; (r.1, none :: r.2)
    | some (p, a1, m1) => let r := runOps a1 m1 rest; (r.1, some p :: r.2)
  | Op.reset :: rest =>
    let r := runOps a.reset m rest
    (r.1, none :: r.2)

/-- The successful allocations produced by running `alloc` calls with the given
sizes from state `a`, recorded as pairs (returned offset, requested size). -/
def allocTrace (a : LinearArena) (sizes : List Nat) : List (Nat × Nat) :=
  match sizes with
  | [] => []
  | size :: rest =>
    match a.alloc size with
    | none => allocTrace a rest
    | some (p, a1) => (p, size) :: allocTrace a1 rest

/-- The cursor values observed after each successful `alloc` call when running
the given sizes from state `a`. -/
def cursorTrace (a : LinearArena) (sizes : List Nat) : List Nat :=
  match sizes with
  | [] => []
  | size :: rest =>
    match a.alloc size with
    | none => cursorTrace a rest
    | some (_, a1) => a1.current_offset_ :: cursorTrace a1 rest

/-- States reachable from the constructor `LinearArena(s)` (with system page
size `page_size`) by any sequence of `alloc`, `calloc` and `reset` calls.
A failing `alloc`/`calloc` returns early and leaves the state unchanged, so
failures need no separate step. -/
inductive ReachableFrom (page_size s : Nat) : LinearArena → Prop where
  | init : ReachableFrom page_size s (LinearArena.init page_size s)
  | allocStep (a a' : LinearArena) (size p : Nat) :
      ReachableFrom page_size s a → a.alloc size = some (p, a') →
      ReachableFrom page_size s a'
  | callocStep (a a' : LinearArena) (m m' : Nat → Nat) (es blocks p : Nat) :
      ReachableFrom page_size s a → a.calloc m es blocks = some (p, a', m') →
      ReachableFrom page_size s a'
  | resetStep (a : LinearArena) :
      ReachableFrom page_size s a → ReachableFrom page_size s a.reset

/-- Characterization of a successful `alloc`: the returned offset is the old
cursor, the capacity is unchanged, and the new cursor is the wrapped sum,
which the capacity check bounds by `size_`. -/
theorem alloc_some_eq (a : LinearArena) (size p : Nat) (a' : LinearArena)
    (h : a.alloc size = some (p, a')) :
    p = a.current_offset_ ∧ a'.size_ = a.size_ ∧
    a'.current_offset_ = (a.current_offset_ + size) % sizeTMod ∧
    a'.current_offset_ ≤ a.size_ := by
  unfold LinearArena.alloc at h
  split at h
  · exact absurd h (by simp)
  · next hn =>
    simp only [Option.some.injEq, Prod.mk.injEq] at h
    obtain ⟨hp, ha⟩ := h
    subst hp
    subst ha
    exact ⟨rfl, rfl, rfl, Nat.le_of_not_lt hn⟩

/-- Characterization of a successful `calloc`: same shape as `alloc` with the
wrapped product `es * blocks` as the size, plus the `memset` on the buffer. -/
theorem calloc_some_eq (a : LinearArena) (m : Nat → Nat) (es blocks p : Nat)
    (a' : LinearArena) (m' : Nat → Nat)
    (h : a.calloc m es blocks = some (p, a', m')) :
    p = a.current_offset_ ∧ a'.size_ = a.size_ ∧
    a'.current_offset_ = (a.current_offset_ + es * blocks % sizeTMod) % sizeTMod ∧
    a'.current_offset_ ≤ a.size_ ∧
    m' = memset m a.current_offset_ (es * blocks % sizeTMod) := by
  unfold LinearArena.calloc at h
  split at h
  · exact absurd h (by simp)
  · next hn =>
    simp only [Option.some.injEq, Prod.mk.injEq] at h
    obtain ⟨hp, ha, hm⟩ := h
    subst hp
    subst ha
    subst hm
    exact ⟨rfl, rfl, rfl, Nat.le_of_not_lt hn, rfl⟩

/-- When the cursor-plus-size sum does not wrap around `size_t`, `alloc` is the
exact-arithmetic bump allocator. -/
theorem alloc_nowrap (a : LinearArena) (size : Nat)
    (hw : a.current_offset_ + size < sizeTMod) :
    a.alloc size =
      if a.current_offset_ + size ≤ a.size_ then
        some (a.current_offset_, ⟨a.size_, a.current_offset_ + size⟩)
      else none := by
  unfold LinearArena.alloc
  rw [Nat.mod_eq_of_lt hw]
  split
  · next hlt => rw [if_neg (by omega)]
  · next hnlt => rw [if_pos (by omega)]

/-- The cursor never exceeds the tracked capacity in any reachable state. -/
theorem reachable_offset_le (page_size s : Nat) (a : LinearArena)
    (h : ReachableFrom page_size s a) : a.current_offset_ ≤ a.size_ := by
  induction h with
  | init => exact Nat.zero_le _
  | allocStep b b' size p _ hstep ih =>
    obtain ⟨_, hsz, _, hle⟩ := alloc_some_eq b size p b' hstep
    omega
  | callocStep b b' m m' es blocks p _ hstep ih =>
    obtain ⟨_, hsz, _, hle, _⟩ := calloc_some_eq b m es blocks p b' m' hstep
    omega
  | resetStep b _ ih => exact Nat.zero_le _

/-- The tracked capacity of every reachable state is the capacity recorded at
construction. -/
theorem reachable_size_eq (page_size s : Nat) (a : LinearArena)
    (h : ReachableFrom page_size s a) : a.size_ = optimal_alloc page_size s := by
  induction h with
  | init => rfl
  | allocStep b b' size p _ hstep ih =>
    obtain ⟨_, hsz, _, _⟩ := alloc_some_eq b size p b' hstep
    omega
  | callocStep b b' m m' es blocks p _ hstep ih =>
    obtain ⟨_, hsz, _, _, _⟩ := calloc_some_eq b m es blocks p b' m' hstep
    omega
  | resetStep b _ ih => exact ih

/-- Without `size_t` wrap-around, the cursor values after successful `alloc`
calls form a non-decreasing chain bounded by the capacity. -/
theorem cursorTrace_chain (sizes : List Nat) (a : LinearArena)
    (hinv : a.current_offset_ ≤ a.size_)
    (hnw : ∀ sz ∈ sizes, a.size_ + sz < sizeTMod) :
    List.Chain' (fun x y => x ≤ y) (a.current_offset_ :: cursorTrace a sizes) ∧
    ∀ c ∈ cursorTrace a sizes, c ≤ a.size_ := by
  induction sizes generalizing a with
  | nil => simp [cursorTrace]
  | cons sz rest ih =>
    have hw : a.current_offset_ + sz < sizeTMod := by
      have := hnw sz (by simp)
      omega
    have halloc := alloc_nowrap a sz hw
    by_cases hc : a.current_offset_ + sz ≤ a.size_
    · rw [if_pos hc] at halloc
      have htr : cursorTrace a (sz :: rest) =
          (a.current_offset_ + sz) ::
            cursorTrace ⟨a.size_, a.current_offset_ + sz⟩ rest := by
        simp only [cursorTrace, halloc]
      have ih1 := ih ⟨a.size_, a.current_offset_ + sz⟩ hc
        (fun u hu => hnw u (List.mem_cons_of_mem _ hu))
      rw [htr]
      constructor
      · exact List.chain'_cons.mpr ⟨by omega, ih1.1⟩
      · intro c hc'
        rcases List.mem_cons.mp hc' with hc' | hc'
        · omega
        · exact ih1.2 c hc'
    · rw [if_neg hc] at halloc
      have htr : cursorTrace a (sz :: rest) = cursorTrace a rest := by
        simp only [cursorTrace, halloc]
      rw [htr]
      exact ih a hinv (fun u hu => hnw u (List.mem_cons_of_mem _ hu))

/-- Without `size_t` wrap-around, the successful allocations recorded by
`allocTrace` are ordered: each region ends no later than the next one starts,
and every recorded offset is at least the starting cursor. -/
theorem allocTrace_ordered (sizes : List Nat) (a : LinearArena)
    (hinv : a.current_offset_ ≤ a.size_)
    (hnw : ∀ sz ∈ sizes, a.size_ + sz < sizeTMod) :
    List.Pairwise (fun e f => e.1 + e.2 ≤ f.1) (allocTrace a sizes) ∧
    ∀ e ∈ allocTrace a sizes, a.current_offset_ ≤ e.1 := by
  induction sizes generalizing a with
  | nil => simp [allocTrace]
  | cons sz rest ih =>
    have hw : a.current_offset_ + sz < sizeTMod := by
      have := hnw sz (by simp)
      omega
    have halloc := alloc_nowrap a sz hw
    by_cases hc : a.current_offset_ + sz ≤ a.size_
    · rw [if_pos hc] at halloc
      have htr : allocTrace a (sz :: rest) =
          (a.current_offset_, sz) ::
            allocTrace ⟨a.size_, a.current_offset_ + sz⟩ rest := by
        simp only [allocTrace, halloc]
      have ih1 := ih ⟨a.size_, a.current_offset_ + sz⟩ hc
        (fun u hu => hnw u (List.mem_cons_of_mem _ hu))
      rw [htr]
      constructor
      · refine List.pairwise_cons.mpr ⟨?_, ih1.1⟩
        intro f hf
        exact ih1.2 f hf
      · intro e he
        rcases List.mem_cons.mp he with he | he
        · subst he; exact le_refl _
        · have := ih1.2 e he
          simp only at this
          omega
    · rw [if_neg hc] at halloc
      have htr : allocTrace a (sz :: rest) = allocTrace a rest := by
        simp only [allocTrace, halloc]
      rw [htr]
      exact ih a hinv (fun u hu => hnw u (List.mem_cons_of_mem _ hu))

/-- Step lemma for minimality of the power-of-two buckets: a power of two that
is above some `u` is at least the next power above any power below `u`. -/
theorem two_pow_le_of_between (u k j : Nat) (hku : 2 ^ k ≤ u) (huj : u < 2 ^ j) :
    2 ^ (k + 1) ≤ 2 ^ j := by
  have hkj : k < j := by
    by_contra hc
    push_neg at hc
    exact absurd (lt_of_le_of_lt hku huj)
      (not_lt.mpr (Nat.pow_le_pow_right (by norm_num) hc))
  exact Nat.pow_le_pow_right (by norm_num) hkj

/-- For requests below `2 ^ 12` the loop of `optimal_alloc` returns the least
power of two in the range `[2 ^ 5, 2 ^ 13)` that is strictly greater than the
request. -/
theorem smallBucket_spec (u : Nat) (h : u < 2 ^ 12) :
    ∃ i, 5 ≤ i ∧ i < 13 ∧ smallBucket u = some (2 ^ i) ∧ u < 2 ^ i ∧
      ∀ j, 5 ≤ j → j < 13 → u < 2 ^ j → 2 ^ i ≤ 2 ^ j := by
  by_cases h5 : u < 32
  · exact ⟨5, by norm_num, by norm_num, by simp [smallBucket, h5], by simpa using h5,
      fun j hj5 _ _ => Nat.pow_le_pow_right (by norm_num) hj5⟩
  · by_cases h6 : u < 64
    · exact ⟨6, by norm_num, by norm_num, by simp [smallBucket, h5, h6],
        by simpa using h6,
        fun j _ _ hju =>
          two_pow_le_of_between u 5 j (by simpa using Nat.le_of_not_lt h5) hju⟩
    · by_cases h7 : u < 128
      · exact ⟨7, by norm_num, by norm_num, by simp [smallBucket, h5, h6, h7],
          by simpa using h7,
          fun j _ _ hju =>
            two_pow_le_of_between u 6 j (by simpa using Nat.le_of_not_lt h6) hju⟩
      · by_cases h8 : u < 256
        · exact ⟨8, by norm_num, by norm_num,
            by simp [smallBucket, h5, h6, h7, h8], by simpa using h8,
            fun j _ _ hju =>
              two_pow_le_of_between u 7 j (by simpa using Nat.le_of_not_lt h7) hju⟩
        · by_cases h9 : u < 512
          · exact ⟨9, by norm_num, by norm_num,
              by simp [smallBucket, h5, h6, h7, h8, h9], by simpa using h9,
              fun j _ _ hju =>
                two_pow_le_of_between u 8 j (by simpa using Nat.le_of_not_lt h8) hju⟩
          · by_cases h10 : u < 1024
            · exact ⟨10, by norm_num, by norm_num,
                by simp [smallBucket, h5, h6, h7, h8, h9, h10], by simpa using h10,
                fun j _ _ hju =>
                  two_pow_le_of_between u 9 j
                    (by simpa using Nat.le_of_not_lt h9) hju⟩
            · by_cases h11 : u < 2048
              · exact ⟨11, by norm_num, by norm_num,
                  by simp [smallBucket, h5, h6, h7, h8, h9, h10, h11],
                  by simpa using h11,
                  fun j _ _ hju =>
                    two_pow_le_of_between u 10 j
                      (by simpa using Nat.le_of_not_lt h10) hju⟩
              · have h12 : u < 4096 := by simpa using h
                exact ⟨12, by norm_num, by norm_num,
                  by simp [smallBucket, h5, h6, h7, h8, h9, h10, h11, h12],
                  by simpa using h12,
                  fun j _ _ hju =>
                    two_pow_le_of_between u 11 j
                      (by simpa using Nat.le_of_not_lt h11) hju⟩

/-- When the loop of `optimal_alloc` finds a bucket, that bucket is returned. -/
theorem optimal_alloc_of_smallBucket (page_size u v : Nat)
    (h : smallBucket u = some v) : optimal_alloc page_size u = v := by
  simp [optimal_alloc, h]

/-- For requests of at least `2 ^ 12` the loop of `optimal_alloc` finds no
bucket and control falls through to the later branches. -/
theorem smallBucket_none_of_ge (v : Nat) (h : 2 ^ 12 ≤ v) : smallBucket v = none := by
  have h05 : ¬ v < 32 := Nat.not_lt.mpr (le_trans (by norm_num) h)
  have h06 : ¬ v < 64 := Nat.not_lt.mpr (le_trans (by norm_num) h)
  have h07 : ¬ v < 128 := Nat.not_lt.mpr (le_trans (by norm_num) h)
  have h08 : ¬ v < 256 := Nat.not_lt.mpr (le_trans (by norm_num) h)
  have h09 : ¬ v < 512 := Nat.not_lt.mpr (le_trans (by norm_num) h)
  have h10 : ¬ v < 1024 := Nat.not_lt.mpr (le_trans (by norm_num) h)
  have h11 : ¬ v < 2048 := Nat.not_lt.mpr (le_trans (by norm_num) h)
  have h12 : ¬ v < 4096 := Nat.not_lt.mpr (le_trans (by norm_num) h)
  simp [smallBucket, h05, h06, h07, h08, h09, h10, h11, h12]

/-- Claim C1 (code bug): the spec says that for requests of at least
`2 ^ 20` the rounding function returns `2 ^ 20 + 2 ^ 19 * k` with `k` minimal
such that the result covers the request, in particular
`optimal_alloc 1048576 = 1048576`.  The source instead computes
`ceil(user_sz - (1 << 20) * 1.0 / (512 * 1 << 10)) = user_sz - 2` because of
misplaced parentheses, contradicting the comment right above it
("If greater than 1MB, it will be 1MB + 512KB * K"): at the failing input
`2 ^ 20` it returns `2 ^ 20 + 2 ^ 19 * (2 ^ 20 - 2) = 549755813888 = 2 ^ 39`,
not `2 ^ 20`. -/
theorem C1_optimal_alloc_megabyte_bug :
    optimal_alloc 4096 (2 ^ 20) = 549755813888 ∧
    optimal_alloc 4096 (2 ^ 20) ≠ 2 ^ 20 := by decide

/-- Claim C2 (code bug): the spec says construction requests from the system
allocator exactly the bytes recorded as capacity, so the tracked capacity
never exceeds the bytes obtained.  The `LinearArena` constructor records
`size_ = optimal_alloc(size)` but calls `malloc(size)` with the raw request:
at requested size 100 it records capacity 128 while obtaining only 100 bytes,
contradicting its own doc comment ("Actual allocated size is based on
`optimal_alloc(size)`"). -/
theorem C2_constructor_malloc_mismatch :
    (LinearArena.construct 4096 100).arena.size_ = 128 ∧
    (LinearArena.construct 4096 100).mallocBytes = 100 ∧
    (LinearArena.construct 4096 100).mallocBytes <
      (LinearArena.construct 4096 100).arena.size_ := by decide

/-- Claim C3 counterexample: on the reachable state with capacity 32 and
cursor 2, calling `alloc` with size `2 ^ 64 - 1` succeeds even though
`cursor + size` (exact) far exceeds the capacity — the `size_t` sum wraps —
so "alloc succeeds iff cursor + size ≤ capacity" is false as stated. -/
theorem C3_wrap_counterexample :
    (LinearArena.init 4096 0).alloc 2 = some (0, ⟨32, 2⟩) ∧
    ((⟨32, 2⟩ : LinearArena).alloc (2 ^ 64 - 1)).isSome = true ∧
    ¬((⟨32, 2⟩ : LinearArena).current_offset_ + (2 ^ 64 - 1) ≤
        (⟨32, 2⟩ : LinearArena).size_) := by decide

/-- Claim C3 (amended): for every arena state and every size such that
`cursor + size` does not wrap around `size_t` (is below `2 ^ 64`), `alloc`
succeeds iff `cursor + size ≤ capacity`; on success it returns the old cursor
as the offset, sets the cursor to `cursor + size`, and leaves the capacity
unchanged. -/
theorem C3_alloc_iff_no_wrap (a : LinearArena) (size : Nat)
    (hw : a.current_offset_ + size < sizeTMod) :
    ((a.alloc size).isSome = true ↔ a.current_offset_ + size ≤ a.size_) ∧
    ∀ p a', a.alloc size = some (p, a') →
      p = a.current_offset_ ∧ a'.current_offset_ = a.current_offset_ + size ∧
      a'.size_ = a.size_ := by
  constructor
  · rw [alloc_nowrap a size hw]
    by_cases hc : a.current_offset_ + size ≤ a.size_
    · simp [hc]
    · simp [hc]
  · intro p a' hs
    obtain ⟨hp, hsz, hoff, _⟩ := alloc_some_eq a size p a' hs
    rw [Nat.mod_eq_of_lt hw] at hoff
    exact ⟨hp, hoff, hsz⟩

/-- Witness for C3_alloc_iff_no_wrap at the concrete state with capacity 32,
cursor 0, and size 5. -/
theorem C3_alloc_iff_no_wrap_witness :
    ((⟨32, 0⟩ : LinearArena).alloc 5).isSome = true :=
  ((C3_alloc_iff_no_wrap ⟨32, 0⟩ 5 (by decide)).1).mpr (by decide)

/-- Claim C4 counterexample: on the reachable state with capacity 32 and
cursor 2, calling `alloc` with size `2 ^ 64 - 1` has `cursor + size` (exact)
greater than the capacity, yet the call does not fail: it returns offset 2 and
mutates the cursor to 1, so "returns the failure value without mutating" is
false as stated. -/
theorem C4_wrap_counterexample :
    (LinearArena.init 4096 0).alloc 2 = some (0, ⟨32, 2⟩) ∧
    (⟨32, 2⟩ : LinearArena).size_ <
      (⟨32, 2⟩ : LinearArena).current_offset_ + (2 ^ 64 - 1) ∧
    (⟨32, 2⟩ : LinearArena).alloc (2 ^ 64 - 1) = some (2, ⟨32, 1⟩) := by decide

/-- Claim C4 (amended): whenever `alloc` is called with
`cursor + size > capacity` and the sum does not wrap around `size_t`, it
returns the failure value `none` (so the caller's state is untouched — the
source returns `nullptr` before any mutation), and a subsequent `alloc` call
on the same state whose size fits within the remaining capacity still
succeeds. -/
theorem C4_full_rejects_no_wrap (a : LinearArena) (size : Nat)
    (hw : a.current_offset_ + size < sizeTMod)
    (hover : a.size_ < a.current_offset_ + size) :
    a.alloc size = none ∧
    ∀ size2, a.current_offset_ + size2 ≤ a.size_ → a.size_ < sizeTMod →
      (a.alloc size2).isSome = true := by
  constructor
  · rw [alloc_nowrap a size hw, if_neg (by omega)]
  · intro size2 hfit hcap
    rw [alloc_nowrap a size2 (by omega), if_pos hfit]
    rfl

/-- Witness for C4_full_rejects_no_wrap at the concrete state with capacity
32, cursor 0: size 33 is rejected and size 32 still succeeds. -/
theorem C4_full_rejects_no_wrap_witness :
    (⟨32, 0⟩ : LinearArena).alloc 33 = none ∧
    ((⟨32, 0⟩ : LinearArena).alloc 32).isSome = true :=
  ⟨(C4_full_rejects_no_wrap ⟨32, 0⟩ 33 (by decide) (by decide)).1,
   (C4_full_rejects_no_wrap ⟨32, 0⟩ 33 (by decide) (by decide)).2 32
     (by decide) (by decide)⟩

/-- Claim C5 (confirmed): for every requested size below `2 ^ 12`,
`optimal_alloc` returns the smallest power of two in `[2 ^ 5, 2 ^ 13)` that is
strictly greater than the request (stated as: the result is such a power, and
it is below every such power); in particular `optimal_alloc 0 = 32` and
`optimal_alloc 100 = 128`; and for requests of at least `2 ^ 12` the loop
yields no match and control falls through to the later branches. -/
theorem C5_small_size_rounding (page_size u : Nat) (h : u < 2 ^ 12) :
    (∃ i, 5 ≤ i ∧ i < 13 ∧ optimal_alloc page_size u = 2 ^ i ∧
      u < optimal_alloc page_size u) ∧
    (∀ j, 5 ≤ j → j < 13 → u < 2 ^ j → optimal_alloc page_size u ≤ 2 ^ j) ∧
    optimal_alloc page_size 0 = 32 ∧ optimal_alloc page_size 100 = 128 ∧
    (∀ v, 2 ^ 12 ≤ v → smallBucket v = none) := by
  obtain ⟨i, hi5, hi13, hsb, hlt, hmin⟩ := smallBucket_spec u h
  have heq := optimal_alloc_of_smallBucket page_size u (2 ^ i) hsb
  refine ⟨⟨i, hi5, hi13, heq, by rw [heq]; exact hlt⟩, ?_, rfl, rfl,
    smallBucket_none_of_ge⟩
  intro j hj5 hj13 hju
  rw [heq]
  exact hmin j hj5 hj13 hju

/-- Witness for C5_small_size_rounding at page size 4096 and the concrete
requests 0 and 100. -/
theorem C5_small_size_rounding_witness :
    optimal_alloc 4096 0 = 32 ∧ optimal_alloc 4096 100 = 128 :=
  ⟨(C5_small_size_rounding 4096 0 (by norm_num)).2.2.1,
   (C5_small_size_rounding 4096 100 (by norm_num)).2.2.2.1⟩

/-- Claim C6 counterexample: from the freshly constructed arena (capacity 32),
the successful allocations of sizes 2 and `2 ^ 64 - 1` produce the cursor
sequence [2, 1]: the `size_t` sum wraps and the cursor decreases, so the
monotonicity part of the claim is false as stated. -/
theorem C6_monotone_counterexample :
    cursorTrace (LinearArena.init 4096 0) [2, 2 ^ 64 - 1] = [2, 1] ∧
    ¬ List.Chain' (fun x y => x ≤ y)
        ((LinearArena.init 4096 0).current_offset_ ::
          cursorTrace (LinearArena.init 4096 0) [2, 2 ^ 64 - 1]) := by
  have htr : cursorTrace (LinearArena.init 4096 0) [2, 2 ^ 64 - 1] = [2, 1] := by
    decide
  refine ⟨htr, ?_⟩
  rw [htr]
  intro hch
  have h2 := (List.chain'_cons.mp hch).2
  have h21 := (List.chain'_cons.mp h2).1
  exact absurd h21 (by norm_num)

/-- Claim C6 (amended): in every state reachable from construction by `alloc`,
`calloc` and `reset` calls, `cursor ≤ capacity` holds (`0 ≤ cursor` is
inherent, cursors being natural numbers); and across any sequence of `alloc`
calls from such a state in which every requested size keeps
`capacity + size` below `2 ^ 64` (so no `size_t` wrap can occur), the cursor
values after the successful allocations are non-decreasing and bounded by the
capacity. -/
theorem C6_cursor_invariant_monotone (page_size s : Nat) (a : LinearArena)
    (h : ReachableFrom page_size s a) (sizes : List Nat)
    (hnw : ∀ sz ∈ sizes, a.size_ + sz < sizeTMod) :
    a.current_offset_ ≤ a.size_ ∧
    List.Chain' (fun x y => x ≤ y) (a.current_offset_ :: cursorTrace a sizes) ∧
    ∀ c ∈ cursorTrace a sizes, c ≤ a.size_ := by
  have hinv := reachable_offset_le page_size s a h
  exact ⟨hinv, (cursorTrace_chain sizes a hinv hnw).1,
    (cursorTrace_chain sizes a hinv hnw).2⟩

/-- Witness for C6_cursor_invariant_monotone at the freshly constructed arena
of requested size 0 and the allocation sizes [2, 3]. -/
theorem C6_cursor_invariant_monotone_witness :
    (LinearArena.init 4096 0).current_offset_ ≤ (LinearArena.init 4096 0).size_ ∧
    List.Chain' (fun x y => x ≤ y)
      ((LinearArena.init 4096 0).current_offset_ ::
        cursorTrace (LinearArena.init 4096 0) [2, 3]) ∧
    ∀ c ∈ cursorTrace (LinearArena.init 4096 0) [2, 3],
      c ≤ (LinearArena.init 4096 0).size_ :=
  C6_cursor_invariant_monotone 4096 0 (LinearArena.init 4096 0)
    ReachableFrom.init [2, 3] (by decide)

/-- Claim C7 counterexample: from the freshly constructed arena (capacity 32),
allocating sizes 2, `2 ^ 64 - 1` and 10 produces, without any reset, the
successful allocations (0, 2), (2, 2 ^ 64 - 1) and (1, 10); the pair
A = (1, 10), B = (2, 2 ^ 64 - 1) has offset 1 < 2 but 1 + 10 > 2, so the
regions overlap and the claim is false as stated. -/
theorem C7_overlap_counterexample :
    allocTrace (LinearArena.init 4096 0) [2, 2 ^ 64 - 1, 10] =
      [(0, 2), (2, 2 ^ 64 - 1), (1, 10)] ∧
    (1 : Nat) < 2 ∧ ¬((1 : Nat) + 10 ≤ 2) := by decide

/-- Claim C7 (amended): starting from any state whose cursor is within
capacity, for any sequence of `alloc` calls in which every requested size
keeps `capacity + size` below `2 ^ 64` (so no `size_t` wrap can occur), any
two successful allocations A = (a, sa) and B = (b, sb) with `a < b` satisfy
`a + sa ≤ b`: the returned regions never overlap. -/
theorem C7_no_overlap_no_wrap (a : LinearArena) (sizes : List Nat)
    (hinv : a.current_offset_ ≤ a.size_)
    (hnw : ∀ sz ∈ sizes, a.size_ + sz < sizeTMod) :
    ∀ e ∈ allocTrace a sizes, ∀ f ∈ allocTrace a sizes,
      e.1 < f.1 → e.1 + e.2 ≤ f.1 := by
  have hp := (allocTrace_ordered sizes a hinv hnw).1
  have hsym : List.Pairwise
      (fun e f : Nat × Nat =>
        (e.1 < f.1 → e.1 + e.2 ≤ f.1) ∧ (f.1 < e.1 → f.1 + f.2 ≤ e.1))
      (allocTrace a sizes) :=
    hp.imp (fun hef => ⟨fun _ => hef, fun hlt => by omega⟩)
  have hS : Symmetric
      (fun e f : Nat × Nat =>
        (e.1 < f.1 → e.1 + e.2 ≤ f.1) ∧ (f.1 < e.1 → f.1 + f.2 ≤ e.1)) :=
    fun x y hxy => ⟨hxy.2, hxy.1⟩
  intro e he f hf hlt
  by_cases hef : e = f
  · subst hef
    omega
  · exact (List.Pairwise.forall hS hsym he hf hef).1 hlt

/-- Witness for C7_no_overlap_no_wrap at the freshly constructed arena of
requested size 0 with allocation sizes [2, 3], applied to the successful
allocations (0, 2) and (2, 3). -/
theorem C7_no_overlap_no_wrap_witness :
    ((0 : Nat), (2 : Nat)) ∈ allocTrace (LinearArena.init 4096 0) [2, 3] ∧
    ((2 : Nat), (3 : Nat)) ∈ allocTrace (LinearArena.init 4096 0) [2, 3] ∧
    (0 : Nat) + 2 ≤ 2 :=
  ⟨by decide, by decide,
   C7_no_overlap_no_wrap (LinearArena.init 4096 0) [2, 3] (by decide)
     (by decide) (0, 2) (by decide) (2, 3) (by decide) (by decide)⟩

/-- Claim C8 (confirmed): after `reset()` the cursor is 0, and running any
sequence of arena calls right after `reset()` on an arena reachable from
construction with requested size `s` produces exactly the same successes,
failures and offsets as running it right after that construction. -/
theorem C8_reset_replay (page_size s : Nat) (a : LinearArena)
    (h : ReachableFrom page_size s a) (m : Nat → Nat) (ops : List Op) :
    a.reset.current_offset_ = 0 ∧
    (runOps a.reset m ops).2 = (runOps (LinearArena.init page_size s) m ops).2 := by
  have hs := reachable_size_eq page_size s a h
  have hreset : a.reset = LinearArena.init page_size s := by
    unfold LinearArena.reset LinearArena.init
    rw [hs]
  exact ⟨rfl, by rw [hreset]⟩

/-- Witness for C8_reset_replay at the freshly constructed arena of requested
size 0, zeroed buffer contents, and the call sequence [alloc 2]. -/
theorem C8_reset_replay_witness :
    (LinearArena.init 4096 0).reset.current_offset_ = 0 ∧
    (runOps (LinearArena.init 4096 0).reset (fun _ => 0) [Op.alloc 2]).2 =
      (runOps (LinearArena.init 4096 0) (fun _ => 0) [Op.alloc 2]).2 :=
  C8_reset_replay 4096 0 (LinearArena.init 4096 0) ReachableFrom.init
    (fun _ => 0) [Op.alloc 2]

/-- Claim C9 (confirmed): for every element size and block count, `calloc` has
exactly the semantics of `alloc` applied to the `size_t` product
`es * blocks`: the success/failure condition, the returned offset and the
cursor advance coincide; and on success every byte of the returned region is
zero at return time. -/
theorem C9_calloc_semantics (a : LinearArena) (m : Nat → Nat) (es blocks : Nat) :
    (a.calloc m es blocks).map (fun r => (r.1, r.2.1)) =
      a.alloc (es * blocks % sizeTMod) ∧
    ∀ p a' m', a.calloc m es blocks = some (p, a', m') →
      ∀ i, i < es * blocks % sizeTMod → m' (p + i) = 0 := by
  constructor
  · unfold LinearArena.calloc LinearArena.alloc
    by_cases hc : a.size_ <
        (a.current_offset_ + es * blocks % sizeTMod) % sizeTMod
    · rw [if_pos hc, if_pos hc]
      rfl
    · rw [if_neg hc, if_neg hc]
      rfl
  · intro p a' m' hsome i hi
    obtain ⟨hp, _, _, _, hm⟩ := calloc_some_eq a m es blocks p a' m' hsome
    subst hm
    subst hp
    simp only [memset]
    rw [if_pos (by omega)]

/-- Witness for C9_calloc_semantics at the concrete state with capacity 32 and
cursor 0, buffer filled with 7, element size 4 and 2 blocks: byte 3 of the
returned region reads 0. -/
theorem C9_calloc_semantics_witness :
    (⟨32, 0⟩ : LinearArena).calloc (fun _ => 7) 4 2 =
      some (0, ⟨32, 8⟩, memset (fun _ => 7) 0 (4 * 2 % sizeTMod)) ∧
    memset (fun _ => 7) 0 (4 * 2 % sizeTMod) 3 = 0 := by
  have hcalloc : (⟨32, 0⟩ : LinearArena).calloc (fun _ => 7) 4 2 =
      some (0, ⟨32, 8⟩, memset (fun _ => 7) 0 (4 * 2 % sizeTMod)) := rfl
  exact ⟨hcalloc,
    (C9_calloc_semantics ⟨32, 0⟩ (fun _ => 7) 4 2).2 0 ⟨32, 8⟩
      (memset (fun _ => 7) 0 (4 * 2 % sizeTMod)) hcalloc 3 (by decide)⟩

/-- Claim C10 (confirmed): the capacity checks in `alloc` and `calloc` are
computed in wrap-around `size_t` arithmetic modulo `2 ^ 64` — success holds
exactly when the wrapped sum is within capacity — and there are a reachable
state and a size whose exact sum with the cursor exceeds both the capacity and
`2 ^ 64`, yet the wrapped sum falls below the capacity and `alloc` returns a
non-failure result where exact arithmetic would reject. -/
theorem C10_wraparound_check :
    (∀ (a : LinearArena) (size : Nat),
        ((a.alloc size).isSome = true ↔
          (a.current_offset_ + size) % sizeTMod ≤ a.size_)) ∧
    (∀ (a : LinearArena) (m : Nat → Nat) (es blocks : Nat),
        ((a.calloc m es blocks).isSome = true ↔
          (a.current_offset_ + es * blocks % sizeTMod) % sizeTMod ≤ a.size_)) ∧
    ∃ (a : LinearArena) (size : Nat),
      ReachableFrom 4096 0 a ∧ a.size_ < a.current_offset_ + size ∧
      2 ^ 64 < a.current_offset_ + size ∧
      (a.current_offset_ + size) % sizeTMod ≤ a.size_ ∧
      (a.alloc size).isSome = true := by
  refine ⟨?_, ?_, ?_⟩
  · intro a size
    unfold LinearArena.alloc
    by_cases hc : a.size_ < (a.current_offset_ + size) % sizeTMod
    · simp only [if_pos hc, Option.isSome_none]
      constructor
      · intro hfalse
        exact absurd hfalse (by simp)
      · intro hle
        omega
    · simp only [if_neg hc, Option.isSome_some]
      exact ⟨fun _ => Nat.le_of_not_lt hc, fun _ => trivial⟩
  · intro a m es blocks
    unfold LinearArena.calloc
    by_cases hc : a.size_ <
        (a.current_offset_ + es * blocks % sizeTMod) % sizeTMod
    · simp only [if_pos hc, Option.isSome_none]
      constructor
      · intro hfalse
        exact absurd hfalse (by simp)
      · intro hle
        omega
    · simp only [if_neg hc, Option.isSome_some]
      exact ⟨fun _ => Nat.le_of_not_lt hc, fun _ => trivial⟩
  · refine ⟨⟨32, 2⟩, 2 ^ 64 - 1, ?_, by decide, by decide, by decide, by decide⟩
    exact ReachableFrom.allocStep (LinearArena.init 4096 0) ⟨32, 2⟩ 2 0
      ReachableFrom.init (by decide)

